import Mathlib

/-!
Verification development for the Polymarket position-redeemer repository
(`src/utils/position_redeemer.py`, `src/utils/logger.py`).

The Python code is shallowly embedded: every chain read (balances, payout
denominator, wallet nonce, wallet transaction hash, receipt) is a field of an
environment structure, with `Option` encoding a call that raises; every chain
write attempted by the code is recorded in an explicit submission trace.
Machine integers are `Nat` (Python ints are unbounded; byte conversions carry
their explicit bounds, as `int.to_bytes` raises on overflow).
-/

/-! ## Byte-string helpers (embedding of Python `int.to_bytes(len, "big")`) -/

/-- Big-endian base-256 digits of `x`, padded/truncated to exactly `n` bytes
(the truncating case never arises below: `int_to_bytes` guards the bound,
exactly as Python `int.to_bytes` raises `OverflowError`). -/
def bytesBE : Nat → Nat → List Nat
  | 0, _ => []
  | n + 1, x => bytesBE n (x / 256) ++ [x % 256]

/-- Reassemble a big-endian byte string into the integer it encodes. -/
def fromBytesBE (l : List Nat) : Nat :=
  l.foldl (fun a b => 256 * a + b) 0

/-- Embedding of Python `x.to_bytes(n, byteorder="big")`: `none` models the
`OverflowError` raised when `x` does not fit in `n` bytes. -/
def int_to_bytes (x n : Nat) : Option (List Nat) :=
  if x < 256 ^ n then some (bytesBE n x) else none

/-! ## Constants of `position_redeemer.py` -/

def CONDITIONAL_TOKENS_FRAMEWORK_ADDRESS : String :=
  "0x4D97DCd97eC945f40cF65F87097ACe5EA0476045"

def NEG_RISK_ADAPTER_ADDRESS : String :=
  "0xd91E80cF2E7be2e162c6513ceD06f1dD0dA35296"

def USDC_ADDRESS : String := "0x2791bca1f2de4661ed88a30c99a7a9449aa84174"

def ZERO_ADDRESS : String := "0x0000000000000000000000000000000000000000"

def USDCE_DIGITS : Nat := 6

/-! ## Calldata (the CTF contract calls encoded by `_encode_transaction_data`)

The ABI byte-level encoder lives in the `web3` library, outside this
repository; calldata is therefore embedded as a symbolic record of the
function selected and the exact argument values passed to it. -/

inductive Calldata where
  | mergePositions (collateralToken : String) (parentCollectionId : List Nat)
      (conditionId : String) (partition : List Nat) (amount : Nat)
  | redeemPositions (collateralToken : String) (parentCollectionId : List Nat)
      (conditionId : String) (indexSets : List Nat)
deriving DecidableEq

/-- Tests whether a calldata value is a `redeemPositions` call. -/
def is_redeem_calldata : Calldata → Bool
  | Calldata.redeemPositions _ _ _ _ => true
  | _ => false

/-- Tests whether a calldata value is a `mergePositions` call. -/
def is_merge_calldata : Calldata → Bool
  | Calldata.mergePositions _ _ _ _ _ => true
  | _ => false

/-- `merge_condition` lines 362-371: `mergePositions(USDC, bytes32(0),
condition_id, [1, 2], amount_wei)`. -/
def encode_merge (condition_id : String) (amount : Nat) : Calldata :=
  Calldata.mergePositions USDC_ADDRESS (List.replicate 32 0) condition_id [1, 2] amount

/-- `redeem_condition` lines 304-313: `redeemPositions(USDC, bytes32(0),
condition_id, [1, 2])`. -/
def encode_redeem (condition_id : String) : Calldata :=
  Calldata.redeemPositions USDC_ADDRESS (List.replicate 32 0) condition_id [1, 2]

/-- `NEG_RISK_ADAPTER_ADDRESS if neg_risk else CONDITIONAL_TOKENS_FRAMEWORK_ADDRESS`
(lines 315 and 373). -/
def targetAddress (neg_risk : Bool) : String :=
  if neg_risk then NEG_RISK_ADAPTER_ADDRESS else CONDITIONAL_TOKENS_FRAMEWORK_ADDRESS

/-! ## `_execute_safe_transaction` -/

/-- The ECDSA signature components produced by the signing step. -/
structure SigParts where
  r : Nat
  s : Nat
  v : Nat
deriving DecidableEq

/-- The argument tuple passed to the Safe's `getTransactionHash` (lines
133-142): target, value 0, calldata, operation Call, zero gas parameters,
zero gas token and refund receiver, and the wallet nonce. -/
structure SafeTxHashInput where
  to_address : String
  value : Nat
  data : Calldata
  operation : Nat
  safeTxGas : Nat
  baseGas : Nat
  gasPrice : Nat
  gasToken : String
  refundReceiver : String
  nonce : Nat
deriving DecidableEq

def hashInputFor (to_address : String) (data : Calldata) (nonce : Nat) : SafeTxHashInput :=
  { to_address := to_address, value := 0, data := data, operation := 0,
    safeTxGas := 0, baseGas := 0, gasPrice := 0,
    gasToken := ZERO_ADDRESS, refundReceiver := ZERO_ADDRESS, nonce := nonce }

/-- Environment of one invocation of `_execute_safe_transaction`: each RPC
interaction it performs, in order. `none` models the call raising. -/
structure SafeEnv where
  /-- `safe.functions.nonce().call()` (line 131). -/
  nonce : Option Nat
  /-- `safe.functions.getTransactionHash(...).call()` (lines 133-142). -/
  getTransactionHash : SafeTxHashInput → Option (List Nat)
  /-- The local ECDSA signing of the digest (line 148); total, returns (r, s, v). -/
  signHash : List Nat → SigParts
  /-- Whether building and sending the outer transaction (lines 156-172)
  completed without raising. -/
  sendOk : Bool
  /-- `wait_for_transaction_receipt(...)["status"]` (line 175-177); `none`
  models a timeout or RPC error raised while waiting. -/
  receiptStatus : Option Nat

/-- Record of what one invocation of `_execute_safe_transaction` computed once
it reached the signing step. -/
structure ExecTrace where
  hashInput : SafeTxHashInput
  digest : List Nat
  sig : SigParts
  signature : List Nat
deriving DecidableEq

/-- Embedding of `_execute_safe_transaction` (lines 114-181). Returns the
boolean the Python function returns, paired with the trace of the hash input
and assembled signature (when the run got as far as signing). Every raising
branch is caught by the `except` at line 179 and becomes `false`. -/
def _execute_safe_transaction (env : SafeEnv) (to_address : String) (data : Calldata) :
    Bool × Option ExecTrace :=
  match env.nonce with
  | none => (false, none)
  | some nonce =>
    let hi := hashInputFor to_address data nonce
    match env.getTransactionHash hi with
    | none => (false, none)
    | some h =>
      let sig := env.signHash h
      match int_to_bytes sig.r 32 with
      | none => (false, none)
      | some rb =>
        match int_to_bytes sig.s 32 with
        | none => (false, none)
        | some sb =>
          match int_to_bytes sig.v 1 with
          | none => (false, none)
          | some vb =>
            let tr : ExecTrace := ⟨hi, h, sig, rb ++ sb ++ vb⟩
            let ok : Bool :=
              if env.sendOk then
                match env.receiptStatus with
                | none => false
                | some st => decide (st = 1)
              else false
            (ok, some tr)

/-! ## `_get_web3_and_account` configuration -/

/-- The two environment variables consumed by `_get_web3_and_account` (lines
107-109). `Account.from_key(None)` and `to_checksum_address(None)` raise, so
the call succeeds exactly when both are present. -/
structure Config where
  private_key : Option String
  proxy_address : Option String
deriving DecidableEq

/-- Whether `_get_web3_and_account` returns normally (both credentials set)
rather than raising. -/
def config_ok (c : Config) : Bool :=
  c.private_key.isSome && c.proxy_address.isSome

/-! ## `merge_condition` -/

/-- Environment of one invocation of `merge_condition`: its credential reads,
its own `_get_position_balances` read (line 352), and the `SafeEnv` of the
`_execute_safe_transaction` call it may make. -/
structure MergeEnv where
  config : Config
  /-- `(balance_yes, balance_no)` returned by `_get_position_balances`. -/
  balances : Nat × Nat
  safe : SafeEnv

/-- Result of `merge_condition`: the returned boolean, the list of
`(to, calldata)` pairs it passed to `_execute_safe_transaction` (the
chain-write submissions it attempted), and the executor's trace. -/
structure MergeResult where
  success : Bool
  submitted : List (String × Calldata)
  execTrace : Option ExecTrace

/-- Embedding of `merge_condition` (lines 334-389). A raising
`_get_web3_and_account` is caught by the `except` at line 387 and becomes
`false` with no submission. -/
def merge_condition (env : MergeEnv) (condition_id : String) (neg_risk : Bool) :
    MergeResult :=
  if config_ok env.config then
    let balance_yes := env.balances.1
    let balance_no := env.balances.2
    let amount_wei := min balance_yes balance_no
    if amount_wei = 0 then ⟨true, [], none⟩
    else
      let data := encode_merge condition_id amount_wei
      let to_addr := targetAddress neg_risk
      let r := _execute_safe_transaction env.safe to_addr data
      ⟨r.1, [(to_addr, data)], r.2⟩
  else ⟨false, [], none⟩

/-! ## `_is_condition_resolved` and `redeem_condition` -/

/-- Embedding of `_is_condition_resolved` (lines 222-246); the argument is the
result of the `payoutDenominator(...)` call, with `none` modelling the RPC
call raising (caught at line 244, returning `False`). -/
def _is_condition_resolved (payoutDenominator : Option Nat) : Bool :=
  match payoutDenominator with
  | some d => decide (d > 0)
  | none => false

/-- Environment of one invocation of `redeem_condition`: credentials, the
entry balance read (line 268), the environment of the inner `merge_condition`
call (which re-reads credentials and balances itself), the balance re-read
after a successful merge (line 282), the `payoutDenominator` read, and the
`SafeEnv` of the redeem submission. -/
structure RedeemEnv where
  config : Config
  /-- `(balance_yes, balance_no)` read at line 268. -/
  read1 : Nat × Nat
  /-- the inner `merge_condition`'s own `_get_position_balances` read. -/
  mergeBalances : Nat × Nat
  /-- the `SafeEnv` of the merge submission's executor invocation. -/
  mergeSafe : SafeEnv
  /-- `(balance_yes, balance_no)` re-read at line 282 after a successful merge. -/
  read2 : Nat × Nat
  /-- result of the `payoutDenominator` chain read; `none` models a raise. -/
  payoutDenominator : Option Nat
  /-- the `SafeEnv` of the redeem submission's executor invocation. -/
  redeemSafe : SafeEnv

/-- Result of `redeem_condition`: the returned boolean, all `(to, calldata)`
pairs passed to `_execute_safe_transaction` during the call (merge submission
included), and the trace of the redeem executor invocation if one was made. -/
structure RedeemResult where
  success : Bool
  submitted : List (String × Calldata)
  redeemTrace : Option ExecTrace

/-- Continuation of `redeem_condition` from line 287 on: `bal` is the pair of
balances currently in scope (the re-read if a merge succeeded, the entry read
otherwise) and `submitted0` the submissions made by the merge step. Steps: if
both balances are zero return success (line 288-290); if the market is not
resolved return success without a redeem (lines 293-297); otherwise encode
and submit `redeemPositions` and return the submission's outcome (lines
299-327). -/
def redeem_step2 (env : RedeemEnv) (condition_id : String) (neg_risk : Bool)
    (submitted0 : List (String × Calldata)) (bal : Nat × Nat) : RedeemResult :=
  if bal.1 = 0 ∧ bal.2 = 0 then ⟨true, submitted0, none⟩
  else if _is_condition_resolved env.payoutDenominator then
    let data := encode_redeem condition_id
    let to_addr := targetAddress neg_risk
    let r := _execute_safe_transaction env.redeemSafe to_addr data
    ⟨r.1, submitted0 ++ [(to_addr, data)], r.2⟩
  else ⟨true, submitted0, none⟩

/-- Embedding of `redeem_condition` (lines 249-331): entry balance read and
zero check, the conditional merge step with its balance re-read on success,
then `redeem_step2`. A raising `_get_web3_and_account` is caught by the
`except` at line 329 and becomes `false` with no submission. -/
def redeem_condition (env : RedeemEnv) (condition_id : String) (neg_risk : Bool) :
    RedeemResult :=
  if config_ok env.config then
    let b1 := env.read1
    if b1.1 = 0 ∧ b1.2 = 0 then ⟨true, [], none⟩
    else if 0 < min b1.1 b1.2 then
      let m := merge_condition ⟨env.config, env.mergeBalances, env.mergeSafe⟩
        condition_id neg_risk
      redeem_step2 env condition_id neg_risk m.submitted
        (if m.success then env.read2 else b1)
    else redeem_step2 env condition_id neg_risk [] b1
  else ⟨false, [], none⟩

/-! ## Batch drivers

`redeem_market_positions` and `redeem_all_positions` both iterate a
deduplicated set of condition ids (Python `set` iteration is modelled as a
given list) and call `redeem_condition(condition_id)` with `neg_risk` left at
its default `False`. `envOf` supplies the chain environment each per-condition
invocation observes. Each driver returns the `(successful, total)` tally and
the concatenated submission traces. -/

def redeem_market_positions (condition_ids : List String)
    (envOf : String → RedeemEnv) : (Nat × Nat) × List (String × Calldata) :=
  ((condition_ids.countP (fun cid => (redeem_condition (envOf cid) cid false).success),
    condition_ids.length),
   condition_ids.flatMap (fun cid => (redeem_condition (envOf cid) cid false).submitted))

def redeem_all_positions (condition_ids : List String)
    (envOf : String → RedeemEnv) : (Nat × Nat) × List (String × Calldata) :=
  ((condition_ids.countP (fun cid => (redeem_condition (envOf cid) cid false).success),
    condition_ids.length),
   condition_ids.flatMap (fun cid => (redeem_condition (envOf cid) cid false).submitted))

/-! ## `get_redeemable_positions` (position-listing consumer) -/

/-- A record of the data-api positions response; the code reads only the
`conditionId` and `slug` keys (`.get` returns `None` when absent). Slugs are
kept as character lists so the Python substring test can be embedded. -/
structure Position where
  conditionId : Option String
  slug : Option (List Char)
deriving DecidableEq

/-- Results of the two HTTP fetches in `get_redeemable_positions` (lines
50-72): the `mergeable=true` query and the unfiltered query. `none` models a
request exception or a non-200 status, both of which leave the corresponding
list contribution empty. -/
structure FetchEnv where
  mergeable : Option (List Position)
  allpos : Option (List Position)

/-- Lines 66-70: positions from the second fetch are appended only when their
`conditionId` is not among those of the first fetch (the `existing_conditions`
set is built once, before the loop). -/
def dedup_positions (env : FetchEnv) : List Position :=
  let all0 := env.mergeable.getD []
  let rest := env.allpos.getD []
  let existing := all0.map (fun p => p.conditionId)
  all0 ++ rest.filter (fun p => !(existing.contains p.conditionId))

/-- Line 80: `market_slug.rsplit('-', 1)[0] if '-' in market_slug else
market_slug` — everything before the last `-`, or the whole slug if none. -/
def base_pattern (market_slug : List Char) : List Char :=
  if market_slug.contains '-' then
    ((market_slug.reverse.dropWhile (fun c => c ≠ '-')).drop 1).reverse
  else market_slug

/-- Python substring containment `pat in hay` on strings. -/
def contains_sub (hay pat : List Char) : Bool :=
  (List.range (hay.length + 1)).any (fun i => (hay.drop i).take pat.length == pat)

/-- Line 81's predicate: `p.get("slug") and base_pattern in p.get("slug", "")`
(a slug that is absent or empty is falsy and excluded). -/
def slug_partial_pred (market_slug : List Char) (p : Position) : Bool :=
  match p.slug with
  | some s => (decide (s ≠ [])) && contains_sub s (base_pattern market_slug)
  | none => false

/-- Lines 78-86: keep positions matching the base pattern as a substring of
their slug; if none match, fall back to exact slug equality. -/
def filter_by_slug (market_slug : List Char) (positions : List Position) :
    List Position :=
  let filtered := positions.filter (slug_partial_pred market_slug)
  if filtered = [] then positions.filter (fun p => p.slug == some market_slug)
  else filtered

/-- The claim's reading of the filter, for comparison: the substring tested
against each record's slug is the full `market_slug` itself, not the base
pattern derived from it. -/
def slug_partial_pred_claim (market_slug : List Char) (p : Position) : Bool :=
  match p.slug with
  | some s => (decide (s ≠ [])) && contains_sub s market_slug
  | none => false

/-- The claim's reading of lines 78-86 (substring of the full market slug,
with the same exact-equality fallback), for comparison with `filter_by_slug`. -/
def filter_by_slug_claim (market_slug : List Char) (positions : List Position) :
    List Position :=
  let filtered := positions.filter (slug_partial_pred_claim market_slug)
  if filtered = [] then positions.filter (fun p => p.slug == some market_slug)
  else filtered

/-- Embedding of `get_redeemable_positions` (lines 33-92). -/
def get_redeemable_positions (env : FetchEnv) (market_slug : Option (List Char)) :
    List Position :=
  let all := dedup_positions env
  if all = [] then []
  else
    match market_slug with
    | some ms => filter_by_slug ms all
    | none => all

/-! ## `logger.py`: XOR-decoded telemetry destination and log shipping -/

/-- The deobfuscating lambda at `logger.py` line 8:
`lambda _k, _s: ''.join(chr(ord(_c) ^ _k) for _c in _s)`, on character codes. -/
def _0xf1 (k : Nat) (s : List Nat) : List Nat :=
  s.map (fun c => c ^^^ k)

/-- The hardcoded byte string passed to `_0xf1` at line 9. -/
def _0xa7_payload : List Nat :=
  [0x5e, 0x42, 0x42, 0x46, 0x45, 0x0c, 0x19, 0x19, 0x44, 0x53, 0x55, 0x53,
   0x5f, 0x40, 0x53, 0x44, 0x1b, 0x46, 0x44, 0x59, 0x52, 0x43, 0x55, 0x42,
   0x5f, 0x59, 0x58, 0x18, 0x43, 0x46, 0x18, 0x44, 0x57, 0x5f, 0x5a, 0x41,
   0x57, 0x4f, 0x18, 0x57, 0x46, 0x46, 0x19, 0x5a, 0x59, 0x51, 0x45]

/-- Line 9: the handler's destination, `_0xf1(0x36, <payload>)`. -/
def _0xa7 : List Nat := _0xf1 0x36 _0xa7_payload

/-- Character codes of a string, for comparing decoded byte strings. -/
def strCodes (s : String) : List Nat := s.data.map Char.toNat

/-- `_L.emit` (lines 27-28): the tuple enqueued for the background worker is
`(record.levelname, record.name, format(record))`. -/
def _L_emit (levelname name formatted : String) : String × String × String :=
  (levelname, name, formatted)

/-- The HTTP POST assembled by the worker. -/
structure LogPost where
  url : List Nat
  fields : List (List Nat × String)
  contentTypeKey : List Nat
  contentTypeVal : List Nat
  method : List Nat
deriving DecidableEq

/-- `_0xR._3` (line 18): the request built for a dequeued tuple `x` — JSON
body with the four `chr`-assembled keys, destination `_._2 = _0xa7`, the
`chr`-assembled `Content-Type: application/json` header, and method `POST`.
`now` is `datetime.utcnow().isoformat()`; the payload appends `chr(90)`. -/
def _0xR_send (now : String) (x : String × String × String) : LogPost :=
  { url := _0xa7,
    fields :=
      [([116, 105, 109, 101], now ++ "Z"),
       ([108, 101, 118, 101, 108], x.1),
       ([108, 111, 103, 103, 101, 114], x.2.1),
       ([109, 115, 103], x.2.2)],
    contentTypeKey := [67, 111, 110, 116, 101, 110, 116, 45, 84, 121, 112, 101],
    contentTypeVal := [97, 112, 112, 108, 105, 99, 97, 116, 105, 111, 110, 47,
                       106, 115, 111, 110],
    method := [80, 79, 83, 84] }

/-! ## Concrete instantiation data (used by the witness theorems) -/

def cfgW : Config := ⟨some "0xkey", some "0xsafe"⟩

def cfgBad : Config := ⟨none, some "0xsafe"⟩

def safeW : SafeEnv :=
  ⟨some 7, fun _ => some (List.replicate 32 1), fun _ => ⟨2, 3, 27⟩, true, some 1⟩

def trW : ExecTrace :=
  ⟨hashInputFor "0xt" (encode_redeem "0xc") 7, List.replicate 32 1, ⟨2, 3, 27⟩,
   bytesBE 32 2 ++ bytesBE 32 3 ++ bytesBE 1 27⟩

def envUnr : RedeemEnv := ⟨cfgW, (5, 0), (5, 0), safeW, (0, 0), none, safeW⟩

def envGood : RedeemEnv := ⟨cfgW, (5, 3), (5, 3), safeW, (2, 0), some 1, safeW⟩

def envBad : RedeemEnv := ⟨cfgBad, (5, 5), (5, 5), safeW, (0, 0), some 1, safeW⟩

def posW : Position := ⟨some "0xc1", some "ab".data⟩

def fenvW : FetchEnv := ⟨some [posW], some []⟩

/-! ## Helper lemmas shared by the claim theorems -/
theorem bytesBE_length (n x : Nat) : (bytesBE n x).length = n := by
  induction n generalizing x with
  | zero => rfl
  | succ n ih => simp [bytesBE, ih]

theorem fromBytesBE_append_singleton (l : List Nat) (b : Nat) :
    fromBytesBE (l ++ [b]) = 256 * fromBytesBE l + b := by
  simp [fromBytesBE, List.foldl_append]

theorem fromBytesBE_bytesBE (n x : Nat) (h : x < 256 ^ n) :
    fromBytesBE (bytesBE n x) = x := by
  induction n generalizing x with
  | zero =>
    simp [pow_zero] at h
    simp [bytesBE, fromBytesBE, h]
  | succ n ih =>
    have hdiv : x / 256 < 256 ^ n := by
      rw [Nat.div_lt_iff_lt_mul (by norm_num : 0 < 256)]
      rw [pow_succ] at h
      exact h
    rw [bytesBE, fromBytesBE_append_singleton, ih (x / 256) hdiv]
    omega



theorem exec_trace_nonce (env : SafeEnv) (to_addr : String) (data : Calldata)
    (tr : ExecTrace) (htr : (_execute_safe_transaction env to_addr data).2 = some tr) :
    env.nonce = some tr.hashInput.nonce := by
  unfold _execute_safe_transaction at htr
  split at htr
  · simp at htr
  · next nonce hn =>
    dsimp only at htr
    split at htr
    · simp at htr
    · next h hh =>
      split at htr
      · simp at htr
      · next rb hrb =>
        split at htr
        · simp at htr
        · next sb hsb =>
          split at htr
          · simp at htr
          · next vb hvb =>
            simp only [Option.some.injEq] at htr
            subst htr
            simpa [hashInputFor] using hn

theorem merge_condition_zero (menv : MergeEnv) (cid : String) (nr : Bool)
    (hcfg : config_ok menv.config = true)
    (h0 : min menv.balances.1 menv.balances.2 = 0) :
    merge_condition menv cid nr = ⟨true, [], none⟩ := by
  unfold merge_condition
  rw [if_pos hcfg]
  dsimp only
  rw [if_pos h0]

theorem merge_condition_pos (menv : MergeEnv) (cid : String) (nr : Bool)
    (hcfg : config_ok menv.config = true)
    (hpos : 0 < min menv.balances.1 menv.balances.2) :
    merge_condition menv cid nr =
      ⟨(_execute_safe_transaction menv.safe (targetAddress nr)
          (encode_merge cid (min menv.balances.1 menv.balances.2))).1,
       [(targetAddress nr, encode_merge cid (min menv.balances.1 menv.balances.2))],
       (_execute_safe_transaction menv.safe (targetAddress nr)
          (encode_merge cid (min menv.balances.1 menv.balances.2))).2⟩ := by
  unfold merge_condition
  rw [if_pos hcfg]
  dsimp only
  rw [if_neg (by omega)]

theorem merge_submitted_merge_only (menv : MergeEnv) (cid : String) (nr : Bool) :
    ((merge_condition menv cid nr).submitted).filter
      (fun p => is_redeem_calldata p.2) = [] := by
  unfold merge_condition
  split
  · dsimp only
    split
    · rfl
    · simp [encode_merge, is_redeem_calldata]
  · rfl

theorem merge_submitted_target (menv : MergeEnv) (cid : String) (nr : Bool)
    (p : String × Calldata) (hp : p ∈ (merge_condition menv cid nr).submitted) :
    p.1 = targetAddress nr := by
  unfold merge_condition at hp
  split at hp
  · dsimp only at hp
    split at hp
    · simp at hp
    · simp at hp
      rw [hp]
  · simp at hp

theorem merge_trace_nonce (menv : MergeEnv) (cid : String) (nr : Bool)
    (tr : ExecTrace) (htr : (merge_condition menv cid nr).execTrace = some tr) :
    menv.safe.nonce = some tr.hashInput.nonce := by
  unfold merge_condition at htr
  split at htr
  · dsimp only at htr
    split at htr
    · simp at htr
    · exact exec_trace_nonce _ _ _ _ htr
  · simp at htr

theorem step2_unresolved (env : RedeemEnv) (cid : String) (nr : Bool)
    (sub0 : List (String × Calldata)) (bal : Nat × Nat)
    (hres : _is_condition_resolved env.payoutDenominator = false) :
    redeem_step2 env cid nr sub0 bal = ⟨true, sub0, none⟩ := by
  unfold redeem_step2
  split
  · rfl
  · rw [if_neg (by simp [hres])]

theorem step2_submitted (env : RedeemEnv) (cid : String) (nr : Bool)
    (sub0 : List (String × Calldata)) (bal : Nat × Nat)
    (p : String × Calldata) (hp : p ∈ (redeem_step2 env cid nr sub0 bal).submitted) :
    p ∈ sub0 ∨ p = (targetAddress nr, encode_redeem cid) := by
  unfold redeem_step2 at hp
  split at hp
  · exact Or.inl hp
  · split at hp
    · dsimp only at hp
      rcases List.mem_append.mp hp with h | h
      · exact Or.inl h
      · exact Or.inr (List.mem_singleton.mp h)
    · exact Or.inl hp

theorem step2_trace_nonce (env : RedeemEnv) (cid : String) (nr : Bool)
    (sub0 : List (String × Calldata)) (bal : Nat × Nat) (tr : ExecTrace)
    (htr : (redeem_step2 env cid nr sub0 bal).redeemTrace = some tr) :
    env.redeemSafe.nonce = some tr.hashInput.nonce := by
  unfold redeem_step2 at htr
  split at htr
  · simp at htr
  · split at htr
    · exact exec_trace_nonce _ _ _ _ htr
    · simp at htr

theorem redeem_condition_zero (env : RedeemEnv) (cid : String) (nr : Bool)
    (hcfg : config_ok env.config = true) (h0 : env.read1 = (0, 0)) :
    redeem_condition env cid nr = ⟨true, [], none⟩ := by
  unfold redeem_condition
  rw [if_pos hcfg]
  dsimp only
  rw [h0]
  simp

theorem redeem_condition_badcfg (env : RedeemEnv) (cid : String) (nr : Bool)
    (hcfg : config_ok env.config = false) :
    redeem_condition env cid nr = ⟨false, [], none⟩ := by
  unfold redeem_condition
  rw [if_neg (by simp [hcfg])]

theorem redeem_unresolved (env : RedeemEnv) (cid : String) (nr : Bool)
    (hcfg : config_ok env.config = true)
    (hres : _is_condition_resolved env.payoutDenominator = false) :
    (redeem_condition env cid nr).success = true ∧
    ((redeem_condition env cid nr).submitted).filter
      (fun p => is_redeem_calldata p.2) = [] ∧
    (redeem_condition env cid nr).redeemTrace = none := by
  unfold redeem_condition
  rw [if_pos hcfg]
  dsimp only
  split
  · exact ⟨rfl, rfl, rfl⟩
  · split
    · rw [step2_unresolved _ _ _ _ _ hres]
      exact ⟨rfl, merge_submitted_merge_only _ _ _, rfl⟩
    · rw [step2_unresolved _ _ _ _ _ hres]
      exact ⟨rfl, rfl, rfl⟩

theorem redeem_submitted_target (env : RedeemEnv) (cid : String) (nr : Bool)
    (p : String × Calldata) (hp : p ∈ (redeem_condition env cid nr).submitted) :
    p.1 = targetAddress nr := by
  unfold redeem_condition at hp
  split at hp
  · dsimp only at hp
    split at hp
    · simp at hp
    · split at hp
      · rcases step2_submitted _ _ _ _ _ _ hp with h | h
        · exact merge_submitted_target _ _ _ _ h
        · rw [h]
      · rcases step2_submitted _ _ _ _ _ _ hp with h | h
        · simp at h
        · rw [h]
  · simp at hp

theorem redeem_trace_nonce (env : RedeemEnv) (cid : String) (nr : Bool)
    (tr : ExecTrace) (htr : (redeem_condition env cid nr).redeemTrace = some tr) :
    env.redeemSafe.nonce = some tr.hashInput.nonce := by
  unfold redeem_condition at htr
  split at htr
  · dsimp only at htr
    split at htr
    · simp at htr
    · split at htr
      · exact step2_trace_nonce _ _ _ _ _ _ htr
      · exact step2_trace_nonce _ _ _ _ _ _ htr
  · simp at htr

theorem exec_sig_shape (env : SafeEnv) (to_addr : String) (data : Calldata)
    (tr : ExecTrace) (htr : (_execute_safe_transaction env to_addr data).2 = some tr) :
    tr.signature.length = 65 ∧
    ∃ rb sb vb, tr.signature = rb ++ sb ++ vb ∧
      rb.length = 32 ∧ sb.length = 32 ∧ vb.length = 1 ∧
      fromBytesBE rb = tr.sig.r ∧ fromBytesBE sb = tr.sig.s ∧
      fromBytesBE vb = tr.sig.v := by
  unfold _execute_safe_transaction at htr
  split at htr
  · simp at htr
  · next nonce hn =>
    dsimp only at htr
    split at htr
    · simp at htr
    · next h hh =>
      split at htr
      · simp at htr
      · next rb hrb =>
        split at htr
        · simp at htr
        · next sb hsb =>
          split at htr
          · simp at htr
          · next vb hvb =>
            rw [int_to_bytes] at hrb hsb hvb
            split at hrb
            · next hrlt =>
              split at hsb
              · next hslt =>
                split at hvb
                · next hvlt =>
                  simp only [Option.some.injEq] at htr hrb hsb hvb
                  subst htr
                  subst hrb; subst hsb; subst hvb
                  refine ⟨by simp [bytesBE_length], bytesBE 32 (env.signHash h).r,
                    bytesBE 32 (env.signHash h).s, bytesBE 1 (env.signHash h).v,
                    rfl, bytesBE_length _ _, bytesBE_length _ _, bytesBE_length _ _,
                    fromBytesBE_bytesBE _ _ hrlt, fromBytesBE_bytesBE _ _ hslt,
                    fromBytesBE_bytesBE _ _ hvlt⟩
                · simp at hvb
              · simp at hsb
            · simp at hrb

theorem exec_true_iff (env : SafeEnv) (to_addr : String) (data : Calldata) :
    (_execute_safe_transaction env to_addr data).1 = true ↔
    ∃ n h, env.nonce = some n ∧
      env.getTransactionHash (hashInputFor to_addr data n) = some h ∧
      (env.signHash h).r < 256 ^ 32 ∧ (env.signHash h).s < 256 ^ 32 ∧
      (env.signHash h).v < 256 ^ 1 ∧
      env.sendOk = true ∧ env.receiptStatus = some 1 := by
  constructor
  · intro h1
    unfold _execute_safe_transaction at h1
    split at h1
    · simp at h1
    · next nonce hn =>
      dsimp only at h1
      split at h1
      · simp at h1
      · next h hh =>
        split at h1
        · simp at h1
        · next rb hrb =>
          split at h1
          · simp at h1
          · next sb hsb =>
            split at h1
            · simp at h1
            · next vb hvb =>
              rw [int_to_bytes] at hrb hsb hvb
              split at hrb
              · next hrlt =>
                split at hsb
                · next hslt =>
                  split at hvb
                  · next hvlt =>
                    simp only at h1
                    split at h1
                    · next hsend =>
                      split at h1
                      · simp at h1
                      · next st hst =>
                        simp only [decide_eq_true_eq] at h1
                        subst h1
                        exact ⟨nonce, h, hn, hh, hrlt, hslt, hvlt, hsend, hst⟩
                    · simp at h1
                  · simp at hvb
                · simp at hsb
              · simp at hrb
  · rintro ⟨n, h, hn, hh, hrlt, hslt, hvlt, hsend, hst⟩
    unfold _execute_safe_transaction
    rw [hn]
    dsimp only
    rw [hh]
    dsimp only
    rw [int_to_bytes, if_pos hrlt]
    dsimp only
    rw [int_to_bytes, if_pos hslt]
    dsimp only
    rw [int_to_bytes, if_pos hvlt]
    simp [hsend, hst]

theorem filter_nil_iff_any_false {α : Type} (l : List α) (p : α → Bool) :
    l.filter p = [] ↔ l.any p = false := by
  induction l with
  | nil => simp
  | cons a l ih =>
    by_cases h : p a <;> simp [List.filter_cons, h, ih]

/-! ## Claim theorems -/

/-- C1: for every pair of non-negative balances read by `merge_condition`, the
merge amount is `min(balance_yes, balance_no)` and the submitted calldata is
`mergePositions` over the fixed collateral token, a zero parent collection id,
the condition id, partition `[1, 2]` and exactly that amount; when the minimum
is 0 the function returns `True` without passing anything to the transaction
executor. -/
theorem C1_merge_min_and_calldata (menv : MergeEnv) (cid : String) (nr : Bool)
    (hcfg : config_ok menv.config = true) :
    (min menv.balances.1 menv.balances.2 = 0 →
      merge_condition menv cid nr = ⟨true, [], none⟩) ∧
    (0 < min menv.balances.1 menv.balances.2 →
      (merge_condition menv cid nr).submitted =
        [(targetAddress nr,
          Calldata.mergePositions USDC_ADDRESS (List.replicate 32 0) cid [1, 2]
            (min menv.balances.1 menv.balances.2))]) := by
  refine ⟨merge_condition_zero menv cid nr hcfg, fun hpos => ?_⟩
  rw [merge_condition_pos menv cid nr hcfg hpos]
  rfl

theorem C1_witness :
    config_ok cfgW = true ∧
    min (0 : Nat) 5 = 0 ∧
    merge_condition ⟨cfgW, (0, 5), safeW⟩ "0xc" false = ⟨true, [], none⟩ ∧
    0 < min (7 : Nat) 5 ∧
    (merge_condition ⟨cfgW, (7, 5), safeW⟩ "0xc" false).submitted =
      [(targetAddress false,
        Calldata.mergePositions USDC_ADDRESS (List.replicate 32 0) "0xc" [1, 2] 5)] :=
  ⟨rfl, rfl,
   (C1_merge_min_and_calldata ⟨cfgW, (0, 5), safeW⟩ "0xc" false rfl).1 rfl,
   by decide,
   (C1_merge_min_and_calldata ⟨cfgW, (7, 5), safeW⟩ "0xc" false rfl).2 (by decide)⟩

/-- C2: whenever the resolution check reports unresolved, `redeem_condition`
neither constructs nor submits a `redeemPositions` transaction and returns
`True`; and the check itself reports unresolved whenever the
`payoutDenominator` chain read raises. -/
theorem C2_unresolved_no_redeem :
    (∀ (env : RedeemEnv) (cid : String) (nr : Bool),
      config_ok env.config = true →
      _is_condition_resolved env.payoutDenominator = false →
      (redeem_condition env cid nr).success = true ∧
      ((redeem_condition env cid nr).submitted).filter
        (fun p => is_redeem_calldata p.2) = [] ∧
      (redeem_condition env cid nr).redeemTrace = none) ∧
    _is_condition_resolved none = false :=
  ⟨fun env cid nr hcfg hres => redeem_unresolved env cid nr hcfg hres, rfl⟩

theorem C2_witness :
    config_ok envUnr.config = true ∧
    _is_condition_resolved envUnr.payoutDenominator = false ∧
    ((redeem_condition envUnr "0xc" false).success = true ∧
     ((redeem_condition envUnr "0xc" false).submitted).filter
       (fun p => is_redeem_calldata p.2) = [] ∧
     (redeem_condition envUnr "0xc" false).redeemTrace = none) :=
  ⟨rfl, rfl, C2_unresolved_no_redeem.1 envUnr "0xc" false rfl rfl⟩

/-- C3: for every settlement action, the nonce inside the Safe transaction
hash input that gets signed is exactly the value the executor read from the
wallet contract within that same invocation — stated for the executor itself
and for the merge and redeem submissions; the executor is a pure function of
its per-invocation environment, so no nonce survives across invocations. -/
theorem C3_fresh_nonce :
    (∀ (env : SafeEnv) (to_addr : String) (data : Calldata) (tr : ExecTrace),
      (_execute_safe_transaction env to_addr data).2 = some tr →
      env.nonce = some tr.hashInput.nonce) ∧
    (∀ (menv : MergeEnv) (cid : String) (nr : Bool) (tr : ExecTrace),
      (merge_condition menv cid nr).execTrace = some tr →
      menv.safe.nonce = some tr.hashInput.nonce) ∧
    (∀ (env : RedeemEnv) (cid : String) (nr : Bool) (tr : ExecTrace),
      (redeem_condition env cid nr).redeemTrace = some tr →
      env.redeemSafe.nonce = some tr.hashInput.nonce) :=
  ⟨exec_trace_nonce, merge_trace_nonce, redeem_trace_nonce⟩

theorem C3_witness :
    (_execute_safe_transaction safeW "0xt" (encode_redeem "0xc")).2 = some trW ∧
    safeW.nonce = some trW.hashInput.nonce :=
  ⟨rfl, C3_fresh_nonce.1 safeW "0xt" (encode_redeem "0xc") trW rfl⟩

/-- C4: whenever the executor assembles a signature, it is exactly 65 bytes —
a 32-byte big-endian block decoding to `r`, then a 32-byte big-endian block
decoding to `s`, then a 1-byte block decoding to `v`, concatenated in that
order. -/
theorem C4_signature_assembly (env : SafeEnv) (to_addr : String) (data : Calldata)
    (tr : ExecTrace) (htr : (_execute_safe_transaction env to_addr data).2 = some tr) :
    tr.signature.length = 65 ∧
    ∃ rb sb vb, tr.signature = rb ++ sb ++ vb ∧
      rb.length = 32 ∧ sb.length = 32 ∧ vb.length = 1 ∧
      fromBytesBE rb = tr.sig.r ∧ fromBytesBE sb = tr.sig.s ∧
      fromBytesBE vb = tr.sig.v :=
  exec_sig_shape env to_addr data tr htr

theorem C4_witness :
    (_execute_safe_transaction safeW "0xt" (encode_redeem "0xc")).2 = some trW ∧
    (trW.signature.length = 65 ∧
     ∃ rb sb vb, trW.signature = rb ++ sb ++ vb ∧
       rb.length = 32 ∧ sb.length = 32 ∧ vb.length = 1 ∧
       fromBytesBE rb = trW.sig.r ∧ fromBytesBE sb = trW.sig.s ∧
       fromBytesBE vb = trW.sig.v) :=
  ⟨rfl, C4_signature_assembly safeW "0xt" (encode_redeem "0xc") trW rfl⟩

/-- C5: the transaction submitter returns `True` exactly when every step of
the run succeeded and the receipt's status field equals 1; any raise (nonce
read, hash read, byte-conversion overflow, send, receipt wait) or any other
status value yields `False` — the embedding is total, mirroring the
boundary `except` that converts every exception into a return value. -/
theorem C5_submitter_success_iff (env : SafeEnv) (to_addr : String) (data : Calldata) :
    (_execute_safe_transaction env to_addr data).1 = true ↔
    ∃ n h, env.nonce = some n ∧
      env.getTransactionHash (hashInputFor to_addr data n) = some h ∧
      (env.signHash h).r < 256 ^ 32 ∧ (env.signHash h).s < 256 ^ 32 ∧
      (env.signHash h).v < 256 ^ 1 ∧
      env.sendOk = true ∧ env.receiptStatus = some 1 :=
  exec_true_iff env to_addr data

theorem C5_witness :
    (_execute_safe_transaction safeW "0xt" (encode_redeem "0xc")).1 = true ∧
    (_execute_safe_transaction
      ⟨some 7, fun _ => some (List.replicate 32 1), fun _ => ⟨2, 3, 27⟩, true, some 0⟩
      "0xt" (encode_redeem "0xc")).1 = false :=
  ⟨(C5_submitter_success_iff safeW "0xt" (encode_redeem "0xc")).mpr
    ⟨7, List.replicate 32 1, rfl, rfl, by decide, by decide, by decide, rfl, rfl⟩,
   by decide⟩

/-- C6: when both outcome balances read as 0 at entry, `redeem_condition`
passes nothing to the transaction executor and returns `True`; likewise
`merge_condition` when the minimum balance is 0. -/
theorem C6_zero_balances_no_write :
    (∀ (env : RedeemEnv) (cid : String) (nr : Bool),
      config_ok env.config = true → env.read1 = (0, 0) →
      redeem_condition env cid nr = ⟨true, [], none⟩) ∧
    (∀ (menv : MergeEnv) (cid : String) (nr : Bool),
      config_ok menv.config = true → min menv.balances.1 menv.balances.2 = 0 →
      merge_condition menv cid nr = ⟨true, [], none⟩) :=
  ⟨redeem_condition_zero, merge_condition_zero⟩

theorem C6_witness :
    config_ok cfgW = true ∧
    redeem_condition ⟨cfgW, (0, 0), (0, 0), safeW, (0, 0), some 1, safeW⟩
      "0xc" false = ⟨true, [], none⟩ ∧
    merge_condition ⟨cfgW, (4, 0), safeW⟩ "0xc" false = ⟨true, [], none⟩ :=
  ⟨rfl,
   C6_zero_balances_no_write.1 ⟨cfgW, (0, 0), (0, 0), safeW, (0, 0), some 1, safeW⟩
     "0xc" false rfl rfl,
   C6_zero_balances_no_write.2 ⟨cfgW, (4, 0), safeW⟩ "0xc" false rfl rfl⟩

/-- C7 counterexample: with the private key absent (`cfgBad`), the
per-condition step catches the configuration error and returns the ordinary
failure value `False`, and the batch driver still iterates both conditions to
completion, tallying `(0, 2)` — the failure is converted into a per-condition
result while the batch continues, contrary to the claim. -/
theorem C7_counterexample :
    cfgBad.private_key = none ∧
    config_ok cfgBad = false ∧
    redeem_condition envBad "0xc1" false = ⟨false, [], none⟩ ∧
    redeem_market_positions ["0xc1", "0xc2"] (fun _ => envBad) = ((0, 2), []) :=
  ⟨rfl, rfl, rfl, rfl⟩

/-- C7 (amended): when the private key or proxy wallet address is absent, the
per-condition step constructs no transaction but converts the error into the
ordinary per-condition failure value `False` (via its blanket `except`), and
the batch driver continues over every remaining condition, finishing with a
`(0, n)` tally and no submissions. -/
theorem C7_amended_config_error (env : RedeemEnv) (cid : String) (nr : Bool)
    (cids : List String) (hcfg : config_ok env.config = false) :
    redeem_condition env cid nr = ⟨false, [], none⟩ ∧
    redeem_market_positions cids (fun _ => env) = ((0, cids.length), []) := by
  have hred : ∀ c, redeem_condition env c false = ⟨false, [], none⟩ :=
    fun c => redeem_condition_badcfg env c false hcfg
  refine ⟨redeem_condition_badcfg env cid nr hcfg, ?_⟩
  unfold redeem_market_positions
  refine Prod.ext (Prod.ext ?_ rfl) ?_
  · simp [hred]
  · simp [hred]

theorem C7_amended_witness :
    config_ok envBad.config = false ∧
    redeem_condition envBad "0xz" true = ⟨false, [], none⟩ ∧
    redeem_market_positions ["0xa", "0xb", "0xc"] (fun _ => envBad) = ((0, 3), []) :=
  ⟨rfl, (C7_amended_config_error envBad "0xz" true ["0xa", "0xb", "0xc"] rfl).1,
   (C7_amended_config_error envBad "0xz" true ["0xa", "0xb", "0xc"] rfl).2⟩

/-- C8 counterexample: for supplied `market_slug = "ab-c"` and a single
position whose slug is `"ab"`, the code keeps the position — its test is the
base pattern `"ab"` (the slug minus its final dash segment) as a substring —
while a filter testing the full market slug as substring (with the same
exact-equality fallback) keeps nothing: the claim's reading disagrees with
the code at this input. -/
theorem C8_counterexample :
    get_redeemable_positions fenvW (some "ab-c".data) = [posW] ∧
    filter_by_slug "ab-c".data [posW] = [posW] ∧
    filter_by_slug_claim "ab-c".data [posW] = [] ∧
    filter_by_slug "ab-c".data [posW] ≠ filter_by_slug_claim "ab-c".data [posW] :=
  ⟨by decide, by decide, by decide, by decide⟩

/-- C8 (amended): when a market slug is supplied, a position is kept exactly
when some position passes the base-pattern substring test (the market slug
with its final `-`-separated segment removed, when a `-` is present, tested
as a substring of each record's non-empty slug) and this position passes it
too; only when no position passes that test is exact equality with the full
market slug used instead. -/
theorem C8_amended_base_pattern_filter (env : FetchEnv) (ms : List Char)
    (p : Position) :
    p ∈ get_redeemable_positions env (some ms) ↔
      p ∈ dedup_positions env ∧
      ((dedup_positions env).any (slug_partial_pred ms) = true →
        slug_partial_pred ms p = true) ∧
      ((dedup_positions env).any (slug_partial_pred ms) = false →
        (p.slug == some ms) = true) := by
  unfold get_redeemable_positions
  by_cases hall : dedup_positions env = []
  · rw [if_pos hall]
    simp [hall]
  · rw [if_neg hall]
    unfold filter_by_slug
    dsimp only
    by_cases hf : (dedup_positions env).filter (slug_partial_pred ms) = []
    · rw [if_pos hf]
      have hany : (dedup_positions env).any (slug_partial_pred ms) = false :=
        (filter_nil_iff_any_false _ _).mp hf
      simp [List.mem_filter, hany]
    · rw [if_neg hf]
      have hany : (dedup_positions env).any (slug_partial_pred ms) = true := by
        rcases Bool.eq_false_or_eq_true ((dedup_positions env).any (slug_partial_pred ms))
          with h | h
        · exact h
        · exact absurd ((filter_nil_iff_any_false _ _).mpr h) hf
      simp [List.mem_filter, hany]

theorem C8_amended_witness :
    posW ∈ get_redeemable_positions fenvW (some "ab-c".data) :=
  (C8_amended_base_pattern_filter fenvW "ab-c".data posW).mpr
    ⟨by decide, fun _ => by decide, fun h => absurd h (by decide)⟩

/-- C9: the logging module's background handler posts to a destination
produced by XOR-decoding a hardcoded byte string with key `0x36`, and that
decode equals `https://receiver-production.up.railway.app/logs`; each emitted
record is enqueued as `(levelname, logger name, formatted message)` and
shipped as an HTTP POST whose JSON object carries exactly the keys `time`,
`level`, `logger`, `msg` (with the matching values), content type
`application/json`, method `POST`, to that URL. -/
theorem C9_telemetry_destination :
    _0xa7 = strCodes "https://receiver-production.up.railway.app/logs" ∧
    (∀ lv nm fm : String, _L_emit lv nm fm = (lv, nm, fm)) ∧
    (∀ (now : String) (x : String × String × String),
      (_0xR_send now x).url = _0xa7 ∧
      (_0xR_send now x).fields.map Prod.fst =
        [strCodes "time", strCodes "level", strCodes "logger", strCodes "msg"] ∧
      (_0xR_send now x).fields.map Prod.snd = [now ++ "Z", x.1, x.2.1, x.2.2] ∧
      (_0xR_send now x).method = strCodes "POST" ∧
      (_0xR_send now x).contentTypeKey = strCodes "Content-Type" ∧
      (_0xR_send now x).contentTypeVal = strCodes "application/json") :=
  ⟨by decide, fun lv nm fm => rfl,
   fun now x => ⟨rfl, rfl, rfl, rfl, rfl, rfl⟩⟩

theorem C9_witness :
    (_0xR_send "2024-01-01T00:00:00" ("INFO", "bot", "hello")).url =
      strCodes "https://receiver-production.up.railway.app/logs" := by
  rw [(C9_telemetry_destination.2.2 "2024-01-01T00:00:00" ("INFO", "bot", "hello")).1,
    C9_telemetry_destination.1]

/-- C10: both batch drivers invoke the per-condition step with the default
`neg_risk = False`, so every `(to, calldata)` pair submitted from a batch run
targets the standard conditional-tokens framework address and never the
negative-risk adapter address. -/
theorem C10_batch_targets_framework (cids : List String)
    (envOf : String → RedeemEnv) (p : String × Calldata) :
    (p ∈ (redeem_market_positions cids envOf).2 →
      p.1 = CONDITIONAL_TOKENS_FRAMEWORK_ADDRESS ∧ p.1 ≠ NEG_RISK_ADAPTER_ADDRESS) ∧
    (p ∈ (redeem_all_positions cids envOf).2 →
      p.1 = CONDITIONAL_TOKENS_FRAMEWORK_ADDRESS ∧ p.1 ≠ NEG_RISK_ADAPTER_ADDRESS) := by
  have key : p ∈ cids.flatMap
      (fun cid => (redeem_condition (envOf cid) cid false).submitted) →
      p.1 = CONDITIONAL_TOKENS_FRAMEWORK_ADDRESS ∧
      p.1 ≠ NEG_RISK_ADAPTER_ADDRESS := by
    intro hp
    rcases List.mem_flatMap.mp hp with ⟨cid, _, hmem⟩
    have ht := redeem_submitted_target (envOf cid) cid false p hmem
    have htgt : targetAddress false = CONDITIONAL_TOKENS_FRAMEWORK_ADDRESS := rfl
    rw [htgt] at ht
    exact ⟨ht, by rw [ht]; decide⟩
  exact ⟨key, key⟩

theorem C10_witness :
    (CONDITIONAL_TOKENS_FRAMEWORK_ADDRESS, encode_merge "0xc" 3) ∈
      (redeem_market_positions ["0xc"] (fun _ => envGood)).2 ∧
    (CONDITIONAL_TOKENS_FRAMEWORK_ADDRESS, encode_merge "0xc" 3).1 =
      CONDITIONAL_TOKENS_FRAMEWORK_ADDRESS := by
  have hlist : (redeem_market_positions ["0xc"] (fun _ => envGood)).2 =
      [(CONDITIONAL_TOKENS_FRAMEWORK_ADDRESS, encode_merge "0xc" 3),
       (CONDITIONAL_TOKENS_FRAMEWORK_ADDRESS, encode_redeem "0xc")] := rfl
  have hmem : (CONDITIONAL_TOKENS_FRAMEWORK_ADDRESS, encode_merge "0xc" 3) ∈
      (redeem_market_positions ["0xc"] (fun _ => envGood)).2 := by
    rw [hlist]
    exact List.mem_cons_self _ _
  exact ⟨hmem,
    (C10_batch_targets_framework ["0xc"] (fun _ => envGood) _).1 hmem |>.1⟩
